import Mathlib

/-!
Shallow embedding of `ea-appointment-reminders` (src/main.rs), a daemon that
polls an Easy!Appointments API and sends one-time email reminders for
appointments starting within the next three days.

Modelling conventions:
* Timestamps are integers (seconds since the Unix epoch, UTC); `chrono`
  arithmetic on `DateTime<Utc>` / `TimeDelta` becomes `Int` arithmetic.
* File contents are `List Char`; Rust's `str::split_terminator`, `u32::parse`
  and `u32::to_string` are modelled character by character below.
* The external collaborators (HTTP fetches, the chrono timestamp parse, the
  SMTP server's reaction) are inputs to the cycle function: a fetch is an
  `Except` value, the timestamp parse is a function `List Char → Option Int`,
  and the SMTP outcome is a function of the arguments `send_notification`
  receives.  The engine's own logic (main.rs lines 168-273) is modelled
  exactly.
-/

/-- One decimal digit to its character, as produced by Rust's
`u32::to_string` (only digits 0-9 ever occur). -/
def digitChar (d : Nat) : Char :=
  match d with
  | 0 => '0' | 1 => '1' | 2 => '2' | 3 => '3' | 4 => '4'
  | 5 => '5' | 6 => '6' | 7 => '7' | 8 => '8' | _ => '9'

/-- A character back to its decimal digit, `none` for non-digits.  This is the
per-character step of Rust's `u32::from_str`. -/
def charToDigit (c : Char) : Option Nat :=
  if '0' ≤ c ∧ c ≤ '9' then some (c.toNat - 48) else none

/-- Accumulating decimal evaluation of a character list, most significant
digit first; `none` as soon as a non-digit appears. -/
def parseDigitsAux (acc : Nat) : List Char → Option Nat
  | [] => some acc
  | c :: cs =>
    match charToDigit c with
    | none => none
    | some d => parseDigitsAux (10 * acc + d) cs

/-- Rust's `u32::from_str` accepts an optional leading plus sign. -/
def stripPlus (s : List Char) : List Char :=
  match s with
  | [] => []
  | c :: _ => if c = '+' then s.tail else s

/-- Model of `line.parse::<u32>()` (main.rs line 252): optional plus sign,
then one or more decimal digits, value below 2^32. -/
def parseU32 (s : List Char) : Option Nat :=
  let t := stripPlus s
  if t = [] then none
  else
    match parseDigitsAux 0 t with
    | none => none
    | some v => if v < 4294967296 then some v else none

/-- Model of `id.to_string()` (main.rs line 267): the decimal representation,
most significant digit first. -/
def natToString (n : Nat) : List Char :=
  if n = 0 then ['0'] else (Nat.digits 10 n).reverse.map digitChar

/-- One pass of `str::split`: the first piece (up to the first separator) and
the remaining pieces. -/
def splitAux (sep : Char) : List Char → List Char × List (List Char)
  | [] => ([], [])
  | c :: cs =>
    let r := splitAux sep cs
    if c = sep then ([], r.1 :: r.2) else (c :: r.1, r.2)

/-- `str::split(sep)`: always at least one piece. -/
def splitChar (sep : Char) (l : List Char) : List (List Char) :=
  (splitAux sep l).1 :: (splitAux sep l).2

/-- Drop a trailing empty piece, as `split_terminator` does. -/
def dropTrailingEmpty : List (List Char) → List (List Char)
  | [] => []
  | [x] => if x = [] then [] else [x]
  | x :: xs => x :: dropTrailingEmpty xs

/-- Model of `str::split_terminator(sep)` (main.rs line 251). -/
def splitTerminator (sep : Char) (l : List Char) : List (List Char) :=
  dropTrailingEmpty (splitChar sep l)

/-- Model of `itertools::join("\n")` (main.rs line 267): pieces interspersed
with the separator. -/
def joinWith (sep : Char) : List (List Char) → List Char
  | [] => []
  | [x] => x
  | x :: xs => x ++ sep :: joinWith sep xs

/-- Parse every line as a `u32`, failing on the first bad line.  This is the
`map(|line| line.parse::<u32>().expect(..))` of main.rs line 252, where a
failure is a panic (process abort). -/
def parseLines : List (List Char) → Option (List Nat)
  | [] => some []
  | l :: ls =>
    match parseU32 l with
    | none => none
    | some v =>
      match parseLines ls with
      | none => none
      | some vs => some (v :: vs)

/-- Startup read of `reminders.txt` (main.rs lines 238-258).  `none` models an
absent file (the `reminders_file.exists()` check fails and the set stays
empty); with content present, every `split_terminator('\n')` line must parse
as a `u32`, and any bad line panics the process, modelled as `.error ()`. -/
def loadState (file : Option (List Char)) : Except Unit (List Nat) :=
  match file with
  | none => .ok []
  | some content =>
    match parseLines (splitTerminator '\n' content) with
    | none => .error ()
    | some ids => .ok ids

/-- The file content written back each loop iteration (main.rs lines 265-270):
ids serialized one per line, joined by newlines. -/
def saveContent (ids : List Nat) : List Char :=
  joinWith '\n' (ids.map natToString)

/-- An appointment as deserialized from the API (main.rs lines 59-65):
integer id, raw start-timestamp string, integer customer id. -/
structure Appointment where
  id : Nat
  start : List Char
  customerId : Nat
deriving DecidableEq, Repr

/-- A customer as deserialized from the API (main.rs lines 84-91). -/
structure CustomerInfo where
  id : Nat
  firstName : List Char
  lastName : List Char
  email : List Char
deriving DecidableEq, Repr

/-- What the SMTP layer does with one email: `err` is any failure surfaced as
a Rust `Err` (address parse failure, transport failure from
`sender.send(&email)?`); `response b` is a completed send whose SMTP reply
code is positive (`b = true`) or not (`b = false`). -/
inductive SmtpSend
  | err
  | response (positive : Bool)
deriving DecidableEq, Repr

/-- Model of `send_notification` (main.rs lines 134-165) given the SMTP
layer's outcome: an `Err` anywhere propagates with `?`; a completed send
returns `Ok(())` whether or not `result.is_positive()` — a non-positive reply
code is only logged with `warn!`. -/
def send_notification (outcome : SmtpSend) : Except Unit Unit :=
  match outcome with
  | .err => .error ()
  | .response _ => .ok ()

/-- `TimeDelta::days(3)` in seconds (main.rs line 187). -/
def threeDaysSecs : Int := 259200

/-- How `check` disposes of one appointment before any customer lookup,
mirroring the branch order of main.rs lines 178-190. -/
inductive Decision
  | alreadyNotified
  | startUnparseable
  | expired
  | notYetDue
  | eligible
deriving DecidableEq, Repr

/-- The branch taken for one appointment in the loop body of `check`
(main.rs lines 178-190), in source order: membership in the reminders set,
then the `start_date()?` parse, then the two timing guards. -/
def classify (remindersSet : List Nat) (now : Int)
    (parseTs : List Char → Option Int) (a : Appointment) : Decision :=
  if a.id ∈ remindersSet then .alreadyNotified
  else
    match parseTs a.start with
    | none => .startUnparseable
    | some date =>
      if date ≤ now then .expired
      else if threeDaysSecs < date - now then .notYetDue
      else .eligible

/-- Observable per-appointment happenings of one cycle, in order. -/
inductive Event
  | alreadyNotified (id : Nat)
  | skippedPast (id : Nat)
  | skippedNotYetDue (id : Nat)
  | customerNotFound (id : Nat) (customerId : Nat)
  | dispatched (id : Nat)
  | recorded (id : Nat)
deriving DecidableEq, Repr

/-- The ways `check` can return `Err` (main.rs lines 173, 174, 182, 202). -/
inductive CycleError
  | fetchAppointments
  | fetchCustomers
  | startDate
  | dispatch
deriving DecidableEq, Repr

/-- Outcome of the loop body for a single appointment: either continue to the
next appointment (with the ids pushed onto the reminders set and the events
that happened), or return `Err` from `check` at once. -/
inductive StepResult
  | cont (newIds : List Nat) (evs : List Event)
  | abort (evs : List Event) (e : CycleError)
deriving DecidableEq, Repr

/-- One iteration of the `for appointment in appointments` body
(main.rs lines 178-207): the `classify` branches, then for an eligible
appointment the `customers.iter().find(..)` lookup, `send_notification(..)?`,
and the `reminders_set.push(..)` that follows a successful send. -/
def step (customers : List CustomerInfo) (now : Int)
    (parseTs : List Char → Option Int)
    (smtp : CustomerInfo → List Char → SmtpSend)
    (remindersSet : List Nat) (a : Appointment) : StepResult :=
  match classify remindersSet now parseTs a with
  | .alreadyNotified => .cont [] [.alreadyNotified a.id]
  | .startUnparseable => .abort [] .startDate
  | .expired => .cont [] [.skippedPast a.id]
  | .notYetDue => .cont [] [.skippedNotYetDue a.id]
  | .eligible =>
    match customers.find? (fun c => c.id == a.customerId) with
    | none => .cont [] [.customerNotFound a.id a.customerId]
    | some c =>
      match send_notification (smtp c a.start) with
      | .error _ => .abort [.dispatched a.id] .dispatch
      | .ok _ => .cont [a.id] [.dispatched a.id, .recorded a.id]

/-- The whole `for` loop of `check` (main.rs lines 177-208).  The reminders
set is the `&mut Vec<u32>`: pushes made before an `Err` return are kept. -/
def processAppointments (customers : List CustomerInfo) (now : Int)
    (parseTs : List Char → Option Int)
    (smtp : CustomerInfo → List Char → SmtpSend)
    (remindersSet : List Nat) :
    List Appointment → List Nat × List Event × Option CycleError
  | [] => (remindersSet, [], none)
  | a :: rest =>
    match step customers now parseTs smtp remindersSet a with
    | .abort evs e => (remindersSet, evs, some e)
    | .cont newIds evs =>
      let r := processAppointments customers now parseTs smtp
        (remindersSet ++ newIds) rest
      (r.1, evs ++ r.2.1, r.2.2)

/-- `check` (main.rs lines 168-211): the two fetches with `?`, then the loop.
The fetches are inputs here; a fetch `Err` leaves the set untouched and no
appointment is looked at. -/
def check (fetchA : Except Unit (List Appointment))
    (fetchC : Except Unit (List CustomerInfo)) (now : Int)
    (parseTs : List Char → Option Int)
    (smtp : CustomerInfo → List Char → SmtpSend)
    (remindersSet : List Nat) : List Nat × List Event × Option CycleError :=
  match fetchA with
  | .error _ => (remindersSet, [], some .fetchAppointments)
  | .ok appointments =>
    match fetchC with
    | .error _ => (remindersSet, [], some .fetchCustomers)
    | .ok customers =>
      processAppointments customers now parseTs smtp remindersSet appointments

/-- What one iteration of the infinite loop leaves behind
(main.rs lines 260-273): the set after `check`, the content written to
`reminders.txt`, and the cycle error that was logged, if any.  The write
happens whether or not `check` returned `Err`, and the loop always goes on
to sleep and run again. -/
structure LoopOutcome where
  remindersSet : List Nat
  persisted : List Char
  cycleError : Option CycleError
deriving DecidableEq, Repr

/-- One iteration of the `loop` in `main` (main.rs lines 260-273). -/
def loopIteration (fetchA : Except Unit (List Appointment))
    (fetchC : Except Unit (List CustomerInfo)) (now : Int)
    (parseTs : List Char → Option Int)
    (smtp : CustomerInfo → List Char → SmtpSend)
    (remindersSet : List Nat) : LoopOutcome :=
  let r := check fetchA fetchC now parseTs smtp remindersSet
  { remindersSet := r.1, persisted := saveContent r.1, cycleError := r.2.2 }

/-! ### Lemmas about the serialization layer -/

theorem charToDigit_digitChar (d : Nat) (h : d < 10) :
    charToDigit (digitChar d) = some d := by
  interval_cases d <;> decide

theorem digitChar_ne_plus (d : Nat) : digitChar d ≠ '+' := by
  unfold digitChar
  split <;> decide

theorem digitChar_ne_newline (d : Nat) : digitChar d ≠ '\n' := by
  unfold digitChar
  split <;> decide

theorem parseDigitsAux_map (ds : List Nat) :
    ∀ acc : Nat, (∀ d ∈ ds, d < 10) →
      parseDigitsAux acc (ds.map digitChar) =
        some (ds.foldl (fun a d => 10 * a + d) acc) := by
  induction ds with
  | nil => intro acc _; rfl
  | cons d ds ih =>
    intro acc h
    have hd : d < 10 := h d (by simp)
    simp only [List.map_cons, parseDigitsAux, charToDigit_digitChar d hd,
      List.foldl_cons]
    exact ih (10 * acc + d) (fun x hx => h x (by simp [hx]))

theorem foldl_reverse_ofDigits (L : List Nat) :
    ∀ acc : Nat, (L.reverse).foldl (fun a d => 10 * a + d) acc =
      acc * 10 ^ L.length + Nat.ofDigits 10 L := by
  induction L with
  | nil => intro acc; simp [Nat.ofDigits_nil]
  | cons d L ih =>
    intro acc
    simp only [List.reverse_cons, List.foldl_append, List.foldl_cons,
      List.foldl_nil, ih acc, Nat.ofDigits_cons, List.length_cons, pow_succ]
    ring

theorem stripPlus_cons (c : Char) (cs : List Char) (h : c ≠ '+') :
    stripPlus (c :: cs) = c :: cs := by
  simp [stripPlus, h]

theorem natToString_ne_nil (n : Nat) : natToString n ≠ [] := by
  unfold natToString
  by_cases h : n = 0
  · simp [h]
  · simp only [h, if_false]
    simp [Nat.digits_ne_nil_iff_ne_zero.mpr h]

theorem newline_not_mem_natToString (n : Nat) : '\n' ∉ natToString n := by
  unfold natToString
  by_cases h : n = 0
  · simp [h]
  · simp only [h, if_false]
    intro hmem
    obtain ⟨d, _, hd⟩ := List.mem_map.mp hmem
    exact digitChar_ne_newline d hd

theorem parseU32_natToString (n : Nat) (h : n < 4294967296) :
    parseU32 (natToString n) = some n := by
  by_cases h0 : n = 0
  · subst h0; decide
  · have hne : Nat.digits 10 n ≠ [] := Nat.digits_ne_nil_iff_ne_zero.mpr h0
    have hlt : ∀ d ∈ (Nat.digits 10 n).reverse, d < 10 := by
      intro d hd
      exact Nat.digits_lt_base (by norm_num) (List.mem_reverse.mp hd)
    obtain ⟨d0, ds, hds⟩ := List.exists_cons_of_ne_nil
      (by simpa using hne : (Nat.digits 10 n).reverse ≠ [])
    have hstr : natToString n = digitChar d0 :: ds.map digitChar := by
      unfold natToString
      rw [if_neg h0, hds, List.map_cons]
    have hparse : parseDigitsAux 0 ((Nat.digits 10 n).reverse.map digitChar) =
        some n := by
      rw [parseDigitsAux_map (Nat.digits 10 n).reverse 0 hlt,
        foldl_reverse_ofDigits, Nat.ofDigits_digits]
      simp
    rw [hstr]
    unfold parseU32
    rw [stripPlus_cons _ _ (digitChar_ne_plus d0)]
    simp only [reduceCtorEq, if_false]
    have : parseDigitsAux 0 (digitChar d0 :: ds.map digitChar) = some n := by
      rw [← List.map_cons, ← hds]; exact hparse
    rw [this]
    simp [h]

theorem splitAux_not_mem (sep : Char) :
    ∀ l : List Char, sep ∉ l → splitAux sep l = (l, []) := by
  intro l
  induction l with
  | nil => intro _; rfl
  | cons c cs ih =>
    intro h
    have hc : ¬c = sep := fun hcs => h (by simp [hcs])
    simp [splitAux, hc, ih (fun hm => h (by simp [hm]))]

theorem splitAux_append (sep : Char) :
    ∀ x y : List Char, sep ∉ x →
      splitAux sep (x ++ sep :: y) =
        (x, (splitAux sep y).1 :: (splitAux sep y).2) := by
  intro x
  induction x with
  | nil => intro y _; simp [splitAux]
  | cons c cs ih =>
    intro y h
    have hc : ¬c = sep := fun hcs => h (by simp [hcs])
    simp [splitAux, hc, ih y (fun hm => h (by simp [hm]))]

theorem splitTerminator_joinWith (sep : Char) :
    ∀ ps : List (List Char), (∀ p ∈ ps, p ≠ [] ∧ sep ∉ p) →
      splitTerminator sep (joinWith sep ps) = ps
  | [], _ => by
    simp [joinWith, splitTerminator, splitChar, splitAux, dropTrailingEmpty]
  | [p], h => by
    obtain ⟨hne, hmem⟩ := h p (by simp)
    simp only [joinWith, splitTerminator, splitChar, splitAux_not_mem sep p hmem]
    simp [dropTrailingEmpty, hne]
  | p :: q :: qs, h => by
    obtain ⟨hne, hmem⟩ := h p (by simp)
    have ih := splitTerminator_joinWith sep (q :: qs)
      (fun x hx => h x (by simp only [List.mem_cons] at hx ⊢; tauto))
    simp only [joinWith, splitTerminator, splitChar,
      splitAux_append sep p (joinWith sep (q :: qs)) hmem] at ih ⊢
    simp only [dropTrailingEmpty] at ih ⊢
    rw [ih]

theorem parseLines_map (ids : List Nat) (h : ∀ i ∈ ids, i < 4294967296) :
    parseLines (ids.map natToString) = some ids := by
  induction ids with
  | nil => rfl
  | cons i ids ih =>
    simp only [List.map_cons, parseLines,
      parseU32_natToString i (h i (by simp)),
      ih (fun x hx => h x (by simp [hx]))]

theorem loadState_saveContent (ids : List Nat)
    (h : ∀ i ∈ ids, i < 4294967296) :
    loadState (some (saveContent ids)) = .ok ids := by
  have hsplit : splitTerminator '\n' (saveContent ids) = ids.map natToString := by
    unfold saveContent
    refine splitTerminator_joinWith '\n' (ids.map natToString) ?_
    intro p hp
    obtain ⟨i, _, rfl⟩ := List.mem_map.mp hp
    exact ⟨natToString_ne_nil i, newline_not_mem_natToString i⟩
  simp only [loadState, hsplit, parseLines_map ids h]

/-! ### Lemmas about one cycle -/

theorem classify_eligible_not_mem (remindersSet : List Nat) (now : Int)
    (parseTs : List Char → Option Int) (a : Appointment)
    (h : classify remindersSet now parseTs a = .eligible) :
    a.id ∉ remindersSet := by
  intro hmem
  simp [classify, hmem] at h

theorem step_shape (customers : List CustomerInfo) (now : Int)
    (parseTs : List Char → Option Int)
    (smtp : CustomerInfo → List Char → SmtpSend)
    (remindersSet : List Nat) (a : Appointment) :
    (∃ ev, step customers now parseTs smtp remindersSet a = .cont [] [ev] ∧
      ∀ i, ev ≠ Event.dispatched i) ∨
    (step customers now parseTs smtp remindersSet a =
        .cont [a.id] [.dispatched a.id, .recorded a.id] ∧ a.id ∉ remindersSet) ∨
    step customers now parseTs smtp remindersSet a = .abort [] .startDate ∨
    (step customers now parseTs smtp remindersSet a =
        .abort [.dispatched a.id] .dispatch ∧ a.id ∉ remindersSet) := by
  cases hc : classify remindersSet now parseTs a with
  | alreadyNotified =>
    exact Or.inl ⟨.alreadyNotified a.id, by simp [step, hc], by intro i; simp⟩
  | startUnparseable => exact Or.inr (Or.inr (Or.inl (by simp [step, hc])))
  | expired =>
    exact Or.inl ⟨.skippedPast a.id, by simp [step, hc], by intro i; simp⟩
  | notYetDue =>
    exact Or.inl ⟨.skippedNotYetDue a.id, by simp [step, hc], by intro i; simp⟩
  | eligible =>
    have hfresh := classify_eligible_not_mem remindersSet now parseTs a hc
    cases hfind : customers.find? (fun c => c.id == a.customerId) with
    | none =>
      exact Or.inl ⟨.customerNotFound a.id a.customerId,
        by simp [step, hc, hfind], by intro i; simp⟩
    | some c =>
      cases hsend : smtp c a.start with
      | err =>
        exact Or.inr (Or.inr (Or.inr
          ⟨by simp [step, hc, hfind, hsend, send_notification], hfresh⟩))
      | response b =>
        exact Or.inr (Or.inl
          ⟨by simp [step, hc, hfind, hsend, send_notification], hfresh⟩)

theorem processAppointments_mono (customers : List CustomerInfo) (now : Int)
    (parseTs : List Char → Option Int)
    (smtp : CustomerInfo → List Char → SmtpSend) :
    ∀ (apps : List Appointment) (remindersSet : List Nat), ∀ i ∈ remindersSet,
      i ∈ (processAppointments customers now parseTs smtp remindersSet apps).1
  | [], remindersSet, i, hi => by simpa [processAppointments] using hi
  | a :: rest, remindersSet, i, hi => by
    simp only [processAppointments]
    cases hstep : step customers now parseTs smtp remindersSet a with
    | abort evs e => simpa using hi
    | cont newIds evs =>
      exact processAppointments_mono customers now parseTs smtp rest
        (remindersSet ++ newIds) i (by simp [hi])

theorem processAppointments_dispatch_fresh (customers : List CustomerInfo)
    (now : Int) (parseTs : List Char → Option Int)
    (smtp : CustomerInfo → List Char → SmtpSend) :
    ∀ (apps : List Appointment) (remindersSet : List Nat) (i : Nat),
      Event.dispatched i ∈
        (processAppointments customers now parseTs smtp remindersSet apps).2.1 →
      i ∉ remindersSet
  | [], remindersSet, i, hmem => by simp [processAppointments] at hmem
  | a :: rest, remindersSet, i, hmem => by
    simp only [processAppointments] at hmem
    rcases step_shape customers now parseTs smtp remindersSet a with
      ⟨ev, hstep, hev⟩ | ⟨hstep, hfresh⟩ | hstep | ⟨hstep, hfresh⟩
    · rw [hstep] at hmem
      simp only [List.cons_append, List.nil_append, List.mem_cons] at hmem
      rcases hmem with h | h
      · exact absurd h.symm (hev i)
      · intro hset
        exact processAppointments_dispatch_fresh customers now parseTs smtp
          rest (remindersSet ++ []) i h (by simpa using hset)
    · rw [hstep] at hmem
      simp only [List.cons_append, List.mem_cons] at hmem
      rcases hmem with h | h | h
      · obtain rfl : i = a.id := by simpa using h
        exact hfresh
      · simp at h
      · intro hset
        exact processAppointments_dispatch_fresh customers now parseTs smtp
          rest (remindersSet ++ [a.id]) i h (by simp [hset])
    · rw [hstep] at hmem
      simp at hmem
    · rw [hstep] at hmem
      simp only [List.mem_singleton, Event.dispatched.injEq] at hmem
      subst hmem
      exact hfresh

theorem processAppointments_cons_cont (customers : List CustomerInfo)
    (now : Int) (parseTs : List Char → Option Int)
    (smtp : CustomerInfo → List Char → SmtpSend) (remindersSet : List Nat)
    (a : Appointment) (rest : List Appointment) (newIds : List Nat)
    (evs : List Event)
    (h : step customers now parseTs smtp remindersSet a = .cont newIds evs) :
    processAppointments customers now parseTs smtp remindersSet (a :: rest) =
      ((processAppointments customers now parseTs smtp
          (remindersSet ++ newIds) rest).1,
       evs ++ (processAppointments customers now parseTs smtp
          (remindersSet ++ newIds) rest).2.1,
       (processAppointments customers now parseTs smtp
          (remindersSet ++ newIds) rest).2.2) := by
  simp [processAppointments, h]

theorem processAppointments_cons_abort (customers : List CustomerInfo)
    (now : Int) (parseTs : List Char → Option Int)
    (smtp : CustomerInfo → List Char → SmtpSend) (remindersSet : List Nat)
    (a : Appointment) (rest : List Appointment) (evs : List Event)
    (e : CycleError)
    (h : step customers now parseTs smtp remindersSet a = .abort evs e) :
    processAppointments customers now parseTs smtp remindersSet (a :: rest) =
      (remindersSet, evs, some e) := by
  simp [processAppointments, h]

theorem processAppointments_error_append (customers : List CustomerInfo)
    (now : Int) (parseTs : List Char → Option Int)
    (smtp : CustomerInfo → List Char → SmtpSend) :
    ∀ (l1 l2 : List Appointment) (remindersSet : List Nat),
      (processAppointments customers now parseTs smtp
        remindersSet l1).2.2.isSome →
      processAppointments customers now parseTs smtp remindersSet (l1 ++ l2) =
        processAppointments customers now parseTs smtp remindersSet l1
  | [], l2, remindersSet, h => by
    simp [processAppointments] at h
  | a :: rest, l2, remindersSet, h => by
    cases hstep : step customers now parseTs smtp remindersSet a with
    | abort evs e0 =>
      rw [List.cons_append,
        processAppointments_cons_abort customers now parseTs smtp
          remindersSet a (rest ++ l2) evs e0 hstep,
        processAppointments_cons_abort customers now parseTs smtp
          remindersSet a rest evs e0 hstep]
    | cont newIds evs =>
      rw [processAppointments_cons_cont customers now parseTs smtp
        remindersSet a rest newIds evs hstep] at h
      simp only [Option.isSome] at h
      have hrec := processAppointments_error_append customers now parseTs smtp
        rest l2 (remindersSet ++ newIds) (by simpa using h)
      rw [List.cons_append,
        processAppointments_cons_cont customers now parseTs smtp
          remindersSet a (rest ++ l2) newIds evs hstep,
        processAppointments_cons_cont customers now parseTs smtp
          remindersSet a rest newIds evs hstep, hrec]

theorem parseLines_of_bad_line (l : List Char) (hbad : parseU32 l = none) :
    ∀ ls : List (List Char), l ∈ ls → parseLines ls = none
  | [], hmem => by simp at hmem
  | x :: ls, hmem => by
    rcases List.mem_cons.mp hmem with rfl | hmem2
    · simp [parseLines, hbad]
    · have htail := parseLines_of_bad_line l hbad ls hmem2
      cases hx : parseU32 x <;> simp [parseLines, hx, htail]

/-! ### The claims -/

/-- C1: for a fetched appointment whose id is not yet in the reminders set
and whose start timestamp parses to `d`, the loop body of `check` reaches the
customer lookup and dispatch (`classify` returns `eligible`) exactly when
`0 < d - now ≤ 3 days`; when `d ≤ now` it is silently skipped — no dispatch,
no recording, no error, the loop just continues — and when `d - now > 3 days`
it is skipped as not yet due. -/
theorem C1_reminder_window (customers : List CustomerInfo) (now : Int)
    (parseTs : List Char → Option Int)
    (smtp : CustomerInfo → List Char → SmtpSend) (remindersSet : List Nat)
    (a : Appointment) (d : Int) (hmem : a.id ∉ remindersSet)
    (hp : parseTs a.start = some d) :
    (classify remindersSet now parseTs a = .eligible ↔
      0 < d - now ∧ d - now ≤ threeDaysSecs) ∧
    (d ≤ now →
      step customers now parseTs smtp remindersSet a =
        .cont [] [.skippedPast a.id]) ∧
    (threeDaysSecs < d - now →
      step customers now parseTs smtp remindersSet a =
        .cont [] [.skippedNotYetDue a.id]) ∧
    (classify remindersSet now parseTs a = .eligible →
      step customers now parseTs smtp remindersSet a =
        match customers.find? (fun c => c.id == a.customerId) with
        | none => .cont [] [.customerNotFound a.id a.customerId]
        | some c =>
          match smtp c a.start with
          | .err => .abort [.dispatched a.id] .dispatch
          | .response _ =>
            .cont [a.id] [.dispatched a.id, .recorded a.id]) := by
  refine ⟨?_, ?_, ?_, ?_⟩
  · simp only [classify, hmem, if_false, hp, threeDaysSecs]
    split_ifs with h1 h2 <;> simp <;> omega
  · intro h1
    have hc : classify remindersSet now parseTs a = .expired := by
      simp [classify, hmem, hp, h1]
    simp [step, hc]
  · intro h2
    have h1 : ¬d ≤ now := by
      simp only [threeDaysSecs] at h2; omega
    have hc : classify remindersSet now parseTs a = .notYetDue := by
      simp [classify, hmem, hp, h1, h2]
    simp [step, hc]
  · intro hc
    cases hfind : customers.find? (fun c => c.id == a.customerId) with
    | none => simp [step, hc, hfind]
    | some c =>
      cases hsend : smtp c a.start with
      | err => simp [step, hc, hfind, hsend, send_notification]
      | response b => simp [step, hc, hfind, hsend, send_notification]

theorem C1_witness :
    classify [] 0 (fun _ => some (100 : Int)) ⟨1, [], 5⟩ = .eligible :=
  ((C1_reminder_window [] 0 (fun _ => some 100) (fun _ _ => SmtpSend.err) []
    ⟨1, [], 5⟩ 100 (by simp) rfl).1).mpr (by norm_num [threeDaysSecs])

/-- C2 as stated is false on the code: when the SMTP layer completes the send
but reports a non-positive (non-success) reply code, `send_notification` only
logs a warning and returns `Ok(())` (main.rs lines 155-164), so `check` still
pushes the id.  Here appointment 1 is eligible, the dispatch to customer 7
returns a non-success result, and id 1 is added to the reminders set. -/
theorem C2_counterexample :
    processAppointments [⟨7, [], [], []⟩] 0 (fun _ => some 100)
      (fun _ _ => SmtpSend.response false) [] [⟨1, [], 7⟩] =
      ([1], [Event.dispatched 1, Event.recorded 1], none) := by decide

/-- C2 amended: only an `Err` from `send_notification` (address parse or
transport failure) prevents recording — it aborts the whole cycle with the
reminders set unchanged, so the appointment is classified `eligible` again
next cycle; a send that completes with a non-positive SMTP reply code is
treated as success and the id is recorded anyway. -/
theorem C2_dispatch_failure (customers : List CustomerInfo) (now : Int)
    (parseTs : List Char → Option Int)
    (smtp : CustomerInfo → List Char → SmtpSend) (remindersSet : List Nat)
    (a : Appointment) (c : CustomerInfo) (rest : List Appointment)
    (helig : classify remindersSet now parseTs a = .eligible)
    (hfind : customers.find? (fun x => x.id == a.customerId) = some c) :
    (smtp c a.start = .err →
      processAppointments customers now parseTs smtp remindersSet (a :: rest) =
        (remindersSet, [.dispatched a.id], some .dispatch) ∧
      classify (processAppointments customers now parseTs smtp remindersSet
        (a :: rest)).1 now parseTs a = .eligible) ∧
    (∀ b, smtp c a.start = .response b →
      step customers now parseTs smtp remindersSet a =
        .cont [a.id] [.dispatched a.id, .recorded a.id]) := by
  constructor
  · intro herr
    have hstep : step customers now parseTs smtp remindersSet a =
        .abort [.dispatched a.id] .dispatch := by
      simp [step, helig, hfind, herr, send_notification]
    have habort := processAppointments_cons_abort customers now parseTs smtp
      remindersSet a rest [.dispatched a.id] .dispatch hstep
    refine ⟨habort, ?_⟩
    rw [habort]
    exact helig
  · intro b hb
    simp [step, helig, hfind, hb, send_notification]

theorem C2_witness :
    processAppointments [⟨7, [], [], []⟩] 0 (fun _ => some (100 : Int))
      (fun _ _ => SmtpSend.err) [] [⟨1, [], 7⟩] =
      ([], [Event.dispatched 1], some CycleError.dispatch) :=
  ((C2_dispatch_failure [⟨7, [], [], []⟩] 0 (fun _ => some 100)
    (fun _ _ => SmtpSend.err) [] ⟨1, [], 7⟩ ⟨7, [], [], []⟩ []
    (by decide) (by decide)).1 rfl).1

/-- C3: the reminders set grows monotonically across a cycle — every id in
the set when `check` starts is in the set it leaves behind (ids are never
removed) — and a dispatch is never attempted for an id that was already in
the set at the start of the cycle. -/
theorem C3_monotone_no_resend (fetchA : Except Unit (List Appointment))
    (fetchC : Except Unit (List CustomerInfo)) (now : Int)
    (parseTs : List Char → Option Int)
    (smtp : CustomerInfo → List Char → SmtpSend) (remindersSet : List Nat) :
    (∀ i ∈ remindersSet,
      i ∈ (check fetchA fetchC now parseTs smtp remindersSet).1) ∧
    (∀ i, Event.dispatched i ∈
        (check fetchA fetchC now parseTs smtp remindersSet).2.1 →
      i ∉ remindersSet) := by
  cases fetchA with
  | error e => exact ⟨fun i hi => by simpa [check] using hi, fun i h => by simp [check] at h⟩
  | ok apps =>
    cases fetchC with
    | error e =>
      exact ⟨fun i hi => by simpa [check] using hi, fun i h => by simp [check] at h⟩
    | ok customers =>
      exact ⟨fun i hi => processAppointments_mono customers now parseTs smtp
          apps remindersSet i hi,
        fun i h => processAppointments_dispatch_fresh customers now parseTs
          smtp apps remindersSet i h⟩

theorem C3_witness :
    5 ∈ (check (.ok [⟨1, [], 7⟩]) (.ok []) 0 (fun _ => some (100 : Int))
      (fun _ _ => SmtpSend.err) [5]).1 :=
  (C3_monotone_no_resend (.ok [⟨1, [], 7⟩]) (.ok []) 0 (fun _ => some 100)
    (fun _ _ => SmtpSend.err) [5]).1 5 (by decide)

/-- C4: an appointment whose id is already in the reminders set is classified
`alreadyNotified` before the timestamp is even parsed — whatever `parseTs`
and the timing say — and the loop body neither dispatches nor pushes a
duplicate: the set is passed unchanged to the remaining appointments. -/
theorem C4_already_notified (customers : List CustomerInfo) (now : Int)
    (parseTs : List Char → Option Int)
    (smtp : CustomerInfo → List Char → SmtpSend) (remindersSet : List Nat)
    (a : Appointment) (rest : List Appointment) (h : a.id ∈ remindersSet) :
    classify remindersSet now parseTs a = .alreadyNotified ∧
    step customers now parseTs smtp remindersSet a =
      .cont [] [.alreadyNotified a.id] ∧
    processAppointments customers now parseTs smtp remindersSet (a :: rest) =
      ((processAppointments customers now parseTs smtp remindersSet rest).1,
       Event.alreadyNotified a.id ::
        (processAppointments customers now parseTs smtp remindersSet rest).2.1,
       (processAppointments customers now parseTs smtp
         remindersSet rest).2.2) := by
  have hc : classify remindersSet now parseTs a = .alreadyNotified := by
    simp [classify, h]
  have hstep : step customers now parseTs smtp remindersSet a =
      .cont [] [.alreadyNotified a.id] := by
    simp [step, hc]
  refine ⟨hc, hstep, ?_⟩
  have := processAppointments_cons_cont customers now parseTs smtp
    remindersSet a rest [] [.alreadyNotified a.id] hstep
  simpa using this

theorem C4_witness :
    classify [1] 0 (fun _ => none) ⟨1, [], 7⟩ = .alreadyNotified :=
  (C4_already_notified [] 0 (fun _ => none) (fun _ _ => SmtpSend.err) [1]
    ⟨1, [], 7⟩ [] (by decide)).1

/-- C5 as stated is false on the code: `check` uses the `?` operator on
`appointment.start_date()` (main.rs line 182), so a malformed timestamp
aborts the whole cycle instead of skipping just that appointment.  Here
appointment 1's timestamp fails to parse while appointment 2 is eligible with
a matching customer, yet the cycle stops at appointment 1: no event is
produced for appointment 2 and nothing is dispatched or recorded. -/
theorem C5_counterexample :
    processAppointments [⟨7, [], [], []⟩] 0
      (fun s => if s.isEmpty then none else some 100)
      (fun _ _ => SmtpSend.response true) [] [⟨1, [], 7⟩, ⟨2, ['x'], 7⟩] =
      ([], [], some CycleError.startDate) := by decide

/-- C5 amended: a malformed start timestamp on an un-notified appointment
makes `check` return an error at that appointment: it is not dispatched and
not recorded, the reminders set is left as it was at that point, and the
appointments after it in fetch order are not processed in this cycle (the
whole fetch is retried next cycle, where the same appointment still fails to
parse). -/
theorem C5_malformed_timestamp (customers : List CustomerInfo) (now : Int)
    (parseTs : List Char → Option Int)
    (smtp : CustomerInfo → List Char → SmtpSend) (remindersSet : List Nat)
    (a : Appointment) (rest : List Appointment)
    (hmem : a.id ∉ remindersSet) (hp : parseTs a.start = none) :
    classify remindersSet now parseTs a = .startUnparseable ∧
    step customers now parseTs smtp remindersSet a = .abort [] .startDate ∧
    processAppointments customers now parseTs smtp remindersSet (a :: rest) =
      (remindersSet, [], some .startDate) := by
  have hc : classify remindersSet now parseTs a = .startUnparseable := by
    simp [classify, hmem, hp]
  have hstep : step customers now parseTs smtp remindersSet a =
      .abort [] .startDate := by
    simp [step, hc]
  exact ⟨hc, hstep, processAppointments_cons_abort customers now parseTs smtp
    remindersSet a rest [] .startDate hstep⟩

theorem C5_witness :
    processAppointments [] 0 (fun _ => none) (fun _ _ => SmtpSend.err) [7]
      [⟨1, [], 5⟩, ⟨2, [], 5⟩] = ([7], [], some CycleError.startDate) :=
  (C5_malformed_timestamp [] 0 (fun _ => none) (fun _ _ => SmtpSend.err) [7]
    ⟨1, [], 5⟩ [⟨2, [], 5⟩] (by decide) rfl).2.2

/-- C6: if the appointments fetch fails, or it succeeds and the customers
fetch fails, `check` returns at the `?` before touching any appointment: the
reminders set is exactly the set the cycle started with, no event happens,
and the loop iteration still runs to its end — it persists the unchanged set
(rewriting the file with the same content) and goes on to the next cycle with
only the error logged. -/
theorem C6_fetch_failure_aborts_cycle (fetchC : Except Unit (List CustomerInfo))
    (now : Int) (parseTs : List Char → Option Int)
    (smtp : CustomerInfo → List Char → SmtpSend) (remindersSet : List Nat)
    (apps : List Appointment) :
    check (.error ()) fetchC now parseTs smtp remindersSet =
      (remindersSet, [], some .fetchAppointments) ∧
    check (.ok apps) (.error ()) now parseTs smtp remindersSet =
      (remindersSet, [], some .fetchCustomers) ∧
    loopIteration (.error ()) fetchC now parseTs smtp remindersSet =
      { remindersSet := remindersSet, persisted := saveContent remindersSet,
        cycleError := some .fetchAppointments } ∧
    loopIteration (.ok apps) (.error ()) now parseTs smtp remindersSet =
      { remindersSet := remindersSet, persisted := saveContent remindersSet,
        cycleError := some .fetchCustomers } :=
  ⟨rfl, rfl, rfl, rfl⟩

/-- C7: an eligible appointment whose customer id matches nobody in the
fetched customer list is contained to that appointment: the lookup failure is
logged (the `customerNotFound` event), its id is not added to the reminders
set, and the loop continues through the remaining appointments with the set
unchanged. -/
theorem C7_customer_lookup_failure (customers : List CustomerInfo) (now : Int)
    (parseTs : List Char → Option Int)
    (smtp : CustomerInfo → List Char → SmtpSend) (remindersSet : List Nat)
    (a : Appointment) (rest : List Appointment) (d : Int)
    (hmem : a.id ∉ remindersSet) (hp : parseTs a.start = some d)
    (hwin : 0 < d - now ∧ d - now ≤ threeDaysSecs)
    (hfind : customers.find? (fun c => c.id == a.customerId) = none) :
    step customers now parseTs smtp remindersSet a =
      .cont [] [.customerNotFound a.id a.customerId] ∧
    processAppointments customers now parseTs smtp remindersSet (a :: rest) =
      ((processAppointments customers now parseTs smtp remindersSet rest).1,
       Event.customerNotFound a.id a.customerId ::
        (processAppointments customers now parseTs smtp remindersSet rest).2.1,
       (processAppointments customers now parseTs smtp
         remindersSet rest).2.2) := by
  obtain ⟨hw1, hw2⟩ := hwin
  simp only [threeDaysSecs] at hw2
  have h1 : ¬d ≤ now := by omega
  have h2 : ¬threeDaysSecs < d - now := by simp only [threeDaysSecs]; omega
  have hc : classify remindersSet now parseTs a = .eligible := by
    simp [classify, hmem, hp, h1, h2]
  have hstep : step customers now parseTs smtp remindersSet a =
      .cont [] [.customerNotFound a.id a.customerId] := by
    simp [step, hc, hfind]
  refine ⟨hstep, ?_⟩
  have := processAppointments_cons_cont customers now parseTs smtp
    remindersSet a rest [] [.customerNotFound a.id a.customerId] hstep
  simpa using this

theorem C7_witness :
    processAppointments [] 0 (fun _ => some (100 : Int))
      (fun _ _ => SmtpSend.err) [] [⟨1, [], 5⟩] =
      ([], [Event.customerNotFound 1 5], none) := by
  have h := (C7_customer_lookup_failure [] 0 (fun _ => some 100)
    (fun _ _ => SmtpSend.err) [] ⟨1, [], 5⟩ [] 100 (by decide) rfl
    (by norm_num [threeDaysSecs]) rfl).2
  simpa [processAppointments] using h

/-- C8: at startup (main.rs lines 238-258), an absent `reminders.txt` yields
the empty reminders set without error, while a present file containing any
line that does not parse as a `u32` hits the `expect` panic — startup is
fatal, modelled as `loadState` returning an error. -/
theorem C8_startup_state (content line : List Char)
    (hline : line ∈ splitTerminator '\n' content)
    (hbad : parseU32 line = none) :
    loadState none = .ok [] ∧ loadState (some content) = .error () := by
  refine ⟨rfl, ?_⟩
  simp only [loadState,
    parseLines_of_bad_line line hbad (splitTerminator '\n' content) hline]

theorem C8_witness :
    loadState none = .ok [] ∧
    loadState (some ['1', '2', '\n', 'a']) = .error () :=
  C8_startup_state ['1', '2', '\n', 'a'] ['a'] (by decide) (by decide)

/-- C9: the state store round-trips — serializing any non-empty list of
identifiers (each a valid `u32`) one per line and re-reading it with the
startup parser yields the identifiers back exactly. -/
theorem C9_state_roundtrip (ids : List Nat) (_hne : ids ≠ [])
    (hbound : ∀ i ∈ ids, i < 4294967296) :
    loadState (some (saveContent ids)) = .ok ids :=
  loadState_saveContent ids hbound

theorem C9_witness :
    loadState (some (saveContent [3, 1000])) = .ok [3, 1000] :=
  C9_state_roundtrip [3, 1000] (by decide) (by decide)

/-- C10: when `check` returns an error partway through the appointment list,
everything recorded before the error is kept — the ids pushed during the
partial cycle are in the final set (along with every id the cycle started
with) — and the loop iteration still persists exactly that set to the state
file; the appointments after the failure point contribute nothing (the run
over the longer list equals the run that stops at the error), so they wait
for the next cycle. -/
theorem C10_partial_cycle_persists (customers : List CustomerInfo) (now : Int)
    (parseTs : List Char → Option Int)
    (smtp : CustomerInfo → List Char → SmtpSend) (remindersSet : List Nat)
    (l1 l2 : List Appointment)
    (herr : (processAppointments customers now parseTs smtp
      remindersSet l1).2.2.isSome) :
    processAppointments customers now parseTs smtp remindersSet (l1 ++ l2) =
      processAppointments customers now parseTs smtp remindersSet l1 ∧
    (∀ i ∈ remindersSet,
      i ∈ (processAppointments customers now parseTs smtp
        remindersSet l1).1) ∧
    loopIteration (.ok (l1 ++ l2)) (.ok customers) now parseTs smtp
        remindersSet =
      { remindersSet := (processAppointments customers now parseTs smtp
          remindersSet l1).1,
        persisted := saveContent (processAppointments customers now parseTs
          smtp remindersSet l1).1,
        cycleError := (processAppointments customers now parseTs smtp
          remindersSet l1).2.2 } := by
  have happ := processAppointments_error_append customers now parseTs smtp
    l1 l2 remindersSet herr
  refine ⟨happ, fun i hi => processAppointments_mono customers now parseTs
    smtp l1 remindersSet i hi, ?_⟩
  simp [loopIteration, check, happ]

theorem C10_witness :
    processAppointments [⟨7, [], [], []⟩, ⟨8, [], [], []⟩] 0
      (fun _ => some (100 : Int))
      (fun c _ => if c.id == 7 then SmtpSend.response true else SmtpSend.err)
      [] ([⟨1, [], 7⟩, ⟨2, [], 8⟩] ++ [⟨3, [], 7⟩]) =
      processAppointments [⟨7, [], [], []⟩, ⟨8, [], [], []⟩] 0
        (fun _ => some (100 : Int))
        (fun c _ => if c.id == 7 then SmtpSend.response true else SmtpSend.err)
        [] [⟨1, [], 7⟩, ⟨2, [], 8⟩] :=
  (C10_partial_cycle_persists [⟨7, [], [], []⟩, ⟨8, [], [], []⟩] 0
    (fun _ => some 100)
    (fun c _ => if c.id == 7 then SmtpSend.response true else SmtpSend.err)
    [] [⟨1, [], 7⟩, ⟨2, [], 8⟩] [⟨3, [], 7⟩] (by decide)).1
